import Mathlib

/-!
Shallow embedding of the geofence event-processing service
(`geofence_service/app`: `logic.py`, `state.py`, `zones.py`, `models.py`).

Modelling conventions:
* Python floats are modelled by `PyFloat`: an exact rational for finite
  values plus `inf`, `neginf` and `nan`.  Binary64 rounding is not modelled;
  decimal literals are read as exact rationals.  IEEE comparison semantics
  (every comparison involving `nan` is false) are modelled explicitly.
* Python's `float(str)` parser is modelled by `parsePyFloat` over ASCII
  strings: optional sign, the keywords INF/INFINITY/NAN (the input has
  already been upper-cased), or a decimal literal with optional fractional
  part, exponent part, and single underscores between digits.
* `datetime` timestamps are modelled as natural numbers; `datetime.utcnow()`
  becomes an explicit `now` parameter.
* Python dicts are modelled as association lists with first-match lookup;
  insertion of a fresh key appends, updating an existing key replaces it
  in place (`setPair`), matching dict insertion-order semantics.
* Zone records are validated as by pydantic v2 in lax mode (models.py uses
  pydantic v2): the four float bound fields also accept booleans and
  trimmed numeric strings (`laxCoerceFloat`).  Catalog bounds are exact
  rationals, so only finite coerced values are representable; the
  non-finite string spellings pydantic additionally accepts are outside
  the rational-bounds `Zone` model.
-/

/-- Characters stripped by Python's `str.strip()` (ASCII whitespace). -/
def isPySpace (c : Char) : Bool :=
  c = ' ' || c = '\t' || c = '\n' || c = '\r' || c.toNat = 11 || c.toNat = 12

/-- `str(coord).strip().upper()` from `normalize_coordinate` (ASCII case map). -/
def stripUpper (s : String) : List Char :=
  (((s.toList.dropWhile isPySpace).reverse.dropWhile isPySpace).reverse).map Char.toUpper

/-- The fixed invalid-token set of `normalize_coordinate` (logic.py line 44). -/
def invalidTokens : List String :=
  ["D$Q", "-", "", "NAN", "NONE", "NULL"]

/-- Model of a Python float value: exact rational, infinities, or NaN. -/
inductive PyFloat where
  | finite (q : ℚ)
  | inf
  | neginf
  | nan
deriving DecidableEq, Repr

/-- No two consecutive underscores (Python numeric-literal underscore rule). -/
def noDoubleUnderscore : List Char → Bool
  | [] => true
  | [_] => true
  | a :: b :: rest => !(a = '_' && b = '_') && noDoubleUnderscore (b :: rest)

/-- A valid Python digit group: nonempty, digits and single separating
underscores, beginning and ending with a digit. -/
def digitPartValid (cs : List Char) : Bool :=
  !cs.isEmpty &&
  cs.head?.any Char.isDigit &&
  cs.getLast?.any Char.isDigit &&
  cs.all (fun c => c.isDigit || c = '_') &&
  noDoubleUnderscore cs

/-- Numeric value of a digit group, ignoring underscores. -/
def digitsVal (cs : List Char) : ℕ :=
  cs.foldl (fun acc c => if c.isDigit then acc * 10 + (c.toNat - 48) else acc) 0

/-- Number of digits in a digit group (underscores not counted). -/
def numDigits (cs : List Char) : ℕ :=
  (cs.filter Char.isDigit).length

/-- Mantissa of a decimal literal: returns (digit value, fractional length). -/
def parseMantissa (cs : List Char) : Option (ℕ × ℕ) :=
  match cs.splitOn '.' with
  | [d1] => if digitPartValid d1 then some (digitsVal d1, 0) else none
  | [d1, d2] =>
    if (d1.isEmpty || digitPartValid d1) && (d2.isEmpty || digitPartValid d2)
        && !(d1.isEmpty && d2.isEmpty) then
      some (digitsVal (d1 ++ d2), numDigits d2)
    else none
  | _ => none

/-- Exponent of a decimal literal: optional sign then a digit group. -/
def parseExpPart (cs : List Char) : Option ℤ :=
  match cs with
  | '+' :: rest => if digitPartValid rest then some (digitsVal rest : ℤ) else none
  | '-' :: rest => if digitPartValid rest then some (-(digitsVal rest : ℤ)) else none
  | _ => if digitPartValid cs then some (digitsVal cs : ℤ) else none

/-- Decimal literal (mantissa with optional `E` exponent), as an exact rational. -/
def parseDecimal (cs : List Char) : Option ℚ :=
  match cs.splitOn 'E' with
  | [mant] => (parseMantissa mant).map (fun p => (p.1 : ℚ) / 10 ^ p.2)
  | [mant, ex] => do
    let p ← parseMantissa mant
    let e ← parseExpPart ex
    some ((p.1 : ℚ) * (10 : ℚ) ^ (e - (p.2 : ℤ)))
  | _ => none

/-- Body of a float literal after the optional sign. -/
def parseBody (neg : Bool) (cs : List Char) : Option PyFloat :=
  if cs = "INF".toList || cs = "INFINITY".toList then
    some (if neg then PyFloat.neginf else PyFloat.inf)
  else if cs = "NAN".toList then
    some PyFloat.nan
  else
    (parseDecimal cs).map (fun q => PyFloat.finite (if neg then -q else q))

/-- Model of Python's `float(s)` on an already-stripped, upper-cased string. -/
def parsePyFloat (cs : List Char) : Option PyFloat :=
  match cs with
  | '+' :: rest => parseBody false rest
  | '-' :: rest => parseBody true rest
  | _ => parseBody false cs

/-- The test `abs(value) > 180` of `normalize_coordinate`, with IEEE
semantics: `abs(nan) > 180` is false, `abs(±inf) > 180` is true. -/
def pyAbsGT180 : PyFloat → Bool
  | PyFloat.finite q => decide (180 < |q|)
  | PyFloat.inf => true
  | PyFloat.neginf => true
  | PyFloat.nan => false

/-- `normalize_coordinate` (logic.py lines 25-56). `none` models Python `None`. -/
def normalize_coordinate (coord : Option String) : PyFloat :=
  match coord with
  | none => PyFloat.finite 0
  | some s =>
    let cs := stripUpper s
    if String.mk cs ∈ invalidTokens then PyFloat.finite 0
    else
      match parsePyFloat cs with
      | none => PyFloat.finite 0
      | some v => if pyAbsGT180 v then PyFloat.finite 0 else v

/-- IEEE `≤` on Python floats: false whenever either side is NaN. -/
def pyLe : PyFloat → PyFloat → Bool
  | PyFloat.nan, _ => false
  | _, PyFloat.nan => false
  | PyFloat.neginf, _ => true
  | _, PyFloat.neginf => false
  | PyFloat.finite a, PyFloat.finite b => decide (a ≤ b)
  | PyFloat.finite _, PyFloat.inf => true
  | PyFloat.inf, PyFloat.inf => true
  | PyFloat.inf, PyFloat.finite _ => false

/-- `Zone` (models.py): rectangular geofence bounds. -/
structure Zone where
  zone_id : String
  name : String
  min_lat : ℚ
  max_lat : ℚ
  min_lng : ℚ
  max_lng : ℚ
deriving DecidableEq, Repr

/-- `Zone.contains` (models.py lines 49-54): inclusive bounds on all four edges. -/
def Zone.contains (z : Zone) (lat lng : PyFloat) : Bool :=
  pyLe (PyFloat.finite z.min_lat) lat && pyLe lat (PyFloat.finite z.max_lat) &&
  pyLe (PyFloat.finite z.min_lng) lng && pyLe lng (PyFloat.finite z.max_lng)

/-- `find_zone` (zones.py lines 78-93): first zone containing the point. -/
def find_zone (lat lng : PyFloat) (zones : List Zone) : Option Zone :=
  match zones with
  | [] => none
  | z :: rest => if z.contains lat lng then some z else find_zone lat lng rest

/-- `ZoneTransition` (models.py). -/
inductive ZoneTransition where
  | ENTER
  | EXIT
  | CHANGE
deriving DecidableEq, Repr

/-- The transition-classification chain of `process_location_event`
(logic.py lines 82-91). -/
def classifyTransition (old_zone_id new_zone_id : Option String) : Option ZoneTransition :=
  if old_zone_id = none ∧ new_zone_id ≠ none then some ZoneTransition.ENTER
  else if old_zone_id ≠ none ∧ new_zone_id = none then some ZoneTransition.EXIT
  else if old_zone_id ≠ new_zone_id ∧ old_zone_id ≠ none ∧ new_zone_id ≠ none then
    some ZoneTransition.CHANGE
  else none

example : normalize_coordinate (some "37.7749") = PyFloat.finite (377749 / 10000) := by with_unfolding_all rfl
example : normalize_coordinate (some "D$Q") = PyFloat.finite 0 := by decide
example : normalize_coordinate (some "  nan ") = PyFloat.finite 0 := by decide
example : normalize_coordinate (some "+nan") = PyFloat.nan := by decide
example : normalize_coordinate (some "200") = PyFloat.finite 0 := by with_unfolding_all rfl
example : normalize_coordinate (some "abc") = PyFloat.finite 0 := by decide
example : normalize_coordinate (some "12.34.56") = PyFloat.finite 0 := by decide
example : normalize_coordinate (some "-1_2E1") = PyFloat.finite (-120) := by with_unfolding_all rfl
example : normalize_coordinate (some "INF") = PyFloat.finite 0 := by decide
example : normalize_coordinate (some "1E-2") = PyFloat.finite (1 / 100) := by with_unfolding_all rfl
example : normalize_coordinate none = PyFloat.finite 0 := by decide

/-- `TransitionRecord` appended by `VehicleState.update_zone` (state.py lines 30-36). -/
structure TransitionRecord where
  transition : ZoneTransition
  from_zone : Option String
  to_zone : Option String
  timestamp : ℕ
deriving DecidableEq, Repr

/-- `VehicleState.__init__` fields (state.py lines 10-16). -/
structure VehicleState where
  vehicle_id : String
  current_zone : Option String
  last_update : Option ℕ
  last_latitude : Option PyFloat
  last_longitude : Option PyFloat
  transition_history : List TransitionRecord
deriving DecidableEq, Repr

/-- A freshly constructed `VehicleState(vehicle_id)`. -/
def VehicleState.init (vehicle_id : String) : VehicleState :=
  ⟨vehicle_id, none, none, none, none, []⟩

/-- `VehicleState.update_location` (state.py lines 19-23). -/
def VehicleState.update_location (s : VehicleState) (lat lng : PyFloat) (timestamp : ℕ) :
    VehicleState :=
  { s with last_latitude := some lat, last_longitude := some lng, last_update := some timestamp }

/-- `VehicleState.update_zone` (state.py lines 25-40): append a record,
keep only the last 100. -/
def VehicleState.update_zone (s : VehicleState) (zone_id : Option String)
    (transition : ZoneTransition) (timestamp : ℕ) : VehicleState :=
  let record : TransitionRecord := ⟨transition, s.current_zone, zone_id, timestamp⟩
  let hist := s.transition_history ++ [record]
  let hist2 := if hist.length > 100 then hist.drop (hist.length - 100) else hist
  { s with current_zone := zone_id, transition_history := hist2 }

/-- `VehicleStatus` (models.py): snapshot returned by `to_status`. -/
structure VehicleStatus where
  vehicle_id : String
  current_zone : Option String
  last_update : Option ℕ
  last_latitude : Option PyFloat
  last_longitude : Option PyFloat
  transition_history : List TransitionRecord
deriving DecidableEq, Repr

/-- `VehicleState.to_status` (state.py lines 42-51): copy of all fields
(the history copy is modelled by sharing the immutable list). -/
def VehicleState.to_status (s : VehicleState) : VehicleStatus :=
  ⟨s.vehicle_id, s.current_zone, s.last_update, s.last_latitude, s.last_longitude,
    s.transition_history⟩

/-- Dict store `d[k] = v`: replace the first binding of `k`, or append. -/
def setPair (l : List (String × α)) (k : String) (v : α) : List (String × α) :=
  match l with
  | [] => [(k, v)]
  | (k1, v1) :: rest => if k1 = k then (k, v) :: rest else (k1, v1) :: setPair rest k v

/-- `StateManager` (state.py lines 54-58): vehicle map and zone counts. -/
structure StateManager where
  vehicles : List (String × VehicleState)
  zone_counts : List (String × ℤ)
deriving DecidableEq, Repr

/-- `StateManager.get_vehicle` (state.py lines 60-64): get-or-create. -/
def StateManager.get_vehicle (m : StateManager) (vehicle_id : String) :
    VehicleState × StateManager :=
  match m.vehicles.lookup vehicle_id with
  | some s => (s, m)
  | none =>
    let s := VehicleState.init vehicle_id
    (s, { m with vehicles := m.vehicles ++ [(vehicle_id, s)] })

/-- First block of `StateManager.update_zone_count` (state.py lines 71-72):
`if old_zone:` decrement floored at zero.  The truthiness test skips both
`None` and `""`. -/
def decOldCount (m : StateManager) (old_zone : Option String) : StateManager :=
  match old_zone with
  | some z =>
    if z ≠ "" then
      { m with zone_counts :=
          setPair m.zone_counts z (max 0 ((m.zone_counts.lookup z).getD 0 - 1)) }
    else m
  | none => m

/-- Second block of `StateManager.update_zone_count` (state.py lines 73-74):
`if new_zone:` increment. -/
def incNewCount (m : StateManager) (new_zone : Option String) : StateManager :=
  match new_zone with
  | some z =>
    if z ≠ "" then
      { m with zone_counts :=
          setPair m.zone_counts z ((m.zone_counts.lookup z).getD 0 + 1) }
    else m
  | none => m

/-- `StateManager.update_zone_count` (state.py lines 66-75): the two blocks
in sequence. -/
def StateManager.update_zone_count (m : StateManager) (old_zone new_zone : Option String) :
    StateManager :=
  incNewCount (decOldCount m old_zone) new_zone

/-- `StateManager.get_zone_count` (state.py lines 77-79). -/
def StateManager.get_zone_count (m : StateManager) (zone_id : String) : ℤ :=
  (m.zone_counts.lookup zone_id).getD 0

/-- `LocationEvent` (models.py).  Coordinates are raw string tokens. -/
structure LocationEvent where
  vehicle_id : String
  latitude : Option String
  longitude : Option String
  timestamp : Option ℕ
deriving DecidableEq, Repr

/-- `process_location_event` (logic.py lines 59-107), with the zone catalog
and the current time passed explicitly and the global state threaded. -/
def process_location_event (zones : List Zone) (now : ℕ) (m : StateManager)
    (event : LocationEvent) : (Option String × Option ZoneTransition) × StateManager :=
  let lat := normalize_coordinate event.latitude
  let lng := normalize_coordinate event.longitude
  let vm := m.get_vehicle event.vehicle_id
  let vehicle_state := vm.1
  let m1 := vm.2
  let old_zone_id := vehicle_state.current_zone
  let new_zone := find_zone lat lng zones
  let new_zone_id := new_zone.map Zone.zone_id
  let transition := classifyTransition old_zone_id new_zone_id
  let timestamp := event.timestamp.getD now
  let vs1 := vehicle_state.update_location lat lng timestamp
  match transition with
  | some tr =>
    let vs2 := vs1.update_zone new_zone_id tr timestamp
    let m2 : StateManager := { m1 with vehicles := setPair m1.vehicles event.vehicle_id vs2 }
    ((new_zone_id, some tr), m2.update_zone_count old_zone_id new_zone_id)
  | none =>
    ((new_zone_id, none), { m1 with vehicles := setPair m1.vehicles event.vehicle_id vs1 })

/-- A sequence of processed events (each with its `utcnow` reading). -/
def process_events (zones : List Zone) (m : StateManager)
    (events : List (ℕ × LocationEvent)) : StateManager :=
  events.foldl (fun acc e => (process_location_event zones e.1 acc e.2).2) m

/-- `get_vehicle_status` (main.py lines 87-100): fetches the state via
get-or-create and returns its snapshot; the (possibly grown) store is
returned alongside. -/
def get_vehicle_status (m : StateManager) (vehicle_id : String) :
    VehicleStatus × StateManager :=
  let vm := m.get_vehicle vehicle_id
  (vm.1.to_status, vm.2)

/-- JSON-like structured data read from `zones.json`. -/
inductive Json where
  | null
  | bool (b : Bool)
  | num (q : ℚ)
  | str (s : String)
  | arr (elems : List Json)
  | obj (fields : List (String × Json))

/-- String payload of a JSON value, if any. -/
def getStr : Json → Option String
  | Json.str s => some s
  | _ => none

/-- Numeric payload of a JSON value, if any. -/
def getNum : Json → Option ℚ
  | Json.num q => some q
  | _ => none

/-- A nonempty all-digit group (pydantic-core float-string syntax has no
digit underscores, unlike Python's `float()`). -/
def digitsOnly (cs : List Char) : Bool :=
  !cs.isEmpty && cs.all Char.isDigit

/-- Mantissa of a pydantic-core float string: `digits`, `digits.`,
`digits.digits` or `.digits`. -/
def pydMantissa (cs : List Char) : Option (ℕ × ℕ) :=
  match cs.splitOn '.' with
  | [d1] => if digitsOnly d1 then some (digitsVal d1, 0) else none
  | [d1, d2] =>
    if (d1.isEmpty || digitsOnly d1) && (d2.isEmpty || digitsOnly d2)
        && !(d1.isEmpty && d2.isEmpty) then
      some (digitsVal (d1 ++ d2), numDigits d2)
    else none
  | _ => none

/-- Exponent of a pydantic-core float string: optional sign then digits. -/
def pydExpPart (cs : List Char) : Option ℤ :=
  match cs with
  | '+' :: rest => if digitsOnly rest then some (digitsVal rest : ℤ) else none
  | '-' :: rest => if digitsOnly rest then some (-(digitsVal rest : ℤ)) else none
  | _ => if digitsOnly cs then some (digitsVal cs : ℤ) else none

/-- Finite decimal of a pydantic-core float string, as an exact rational. -/
def pydDecimal (cs : List Char) : Option ℚ :=
  match cs.splitOn 'E' with
  | [mant] => (pydMantissa mant).map (fun p => (p.1 : ℚ) / 10 ^ p.2)
  | [mant, ex] => do
    let p ← pydMantissa mant
    let e ← pydExpPart ex
    some ((p.1 : ℚ) * (10 : ℚ) ^ (e - (p.2 : ℤ)))
  | _ => none

/-- Float-string body after the optional sign (input already upper-cased,
covering the case-insensitive spellings). -/
def pydFloatBody (neg : Bool) (cs : List Char) : Option PyFloat :=
  if cs = "INF".toList || cs = "INFINITY".toList then
    some (if neg then PyFloat.neginf else PyFloat.inf)
  else if cs = "NAN".toList then
    some PyFloat.nan
  else
    (pydDecimal cs).map (fun q => PyFloat.finite (if neg then -q else q))

/-- Modelled from pydantic-core's lax string-to-float conversion: the
string is trimmed, then parsed with float syntax (optional sign, decimal
with optional fraction and exponent, or the non-finite spellings
INF / INFINITY / NAN, case-insensitively). -/
def pydStrFloat (s : String) : Option PyFloat :=
  match stripUpper s with
  | '+' :: rest => pydFloatBody false rest
  | '-' :: rest => pydFloatBody true rest
  | cs => pydFloatBody false cs

/-- Modelled from pydantic v2 lax validation of a `float` field (models.py
is pydantic v2): a JSON number passes through, a boolean coerces to
1.0 / 0.0, and a string is trimmed and parsed as a float.  Bounds are
exact rationals in this embedding, so only finite coerced values are
representable; the non-finite string spellings pydantic also accepts
would give a zone non-finite bounds and lie outside this model. -/
def laxCoerceFloat : Json → Option ℚ
  | Json.num q => some q
  | Json.bool b => some (if b then 1 else 0)
  | Json.str s =>
    match pydStrFloat s with
    | some (PyFloat.finite q) => some q
    | _ => none
  | _ => none

/-- `Zone(**zone_data)` under pydantic v2 lax validation: requires an
object with all six fields present, `zone_id` and `name` strings and the
four bound fields lax-coercible to (finite) floats; extra keys are
ignored. -/
def parseZoneRecord (j : Json) : Option Zone :=
  match j with
  | Json.obj fields => do
    let zid ← (fields.lookup "zone_id").bind getStr
    let zname ← (fields.lookup "name").bind getStr
    let minLat ← (fields.lookup "min_lat").bind laxCoerceFloat
    let maxLat ← (fields.lookup "max_lat").bind laxCoerceFloat
    let minLng ← (fields.lookup "min_lng").bind laxCoerceFloat
    let maxLng ← (fields.lookup "max_lng").bind laxCoerceFloat
    some ⟨zid, zname, minLat, maxLat, minLng, maxLng⟩
  | _ => none

/-- `_get_default_zones` (zones.py lines 56-75). -/
def get_default_zones : List Zone :=
  [⟨"zone_1", "Downtown", 37.7749, 37.7849, -122.4194, -122.4094⟩,
   ⟨"zone_2", "Airport", 37.6213, 37.6313, -122.3789, -122.3689⟩]

/-- `load_zones` (zones.py lines 13-53).  The filesystem boundary is
modelled by the argument: `none` = file absent, `some none` = file exists
but is not parseable JSON, `some (some j)` = file parsed to `j`. -/
def load_zones (file : Option (Option Json)) : Except String (List Zone) :=
  match file with
  | none => Except.ok get_default_zones
  | some none => Except.error "Invalid JSON in zones file"
  | some (some data) =>
    match data with
    | Json.arr items =>
      match items.mapM parseZoneRecord with
      | some zs => Except.ok zs
      | none => Except.error "zone record validation failed"
    | Json.obj fields =>
      match fields.lookup "zones" with
      | some (Json.arr items) =>
        match items.mapM parseZoneRecord with
        | some zs => Except.ok zs
        | none => Except.error "zone record validation failed"
      | some _ => Except.error "zone record validation failed"
      | none => Except.error "Invalid zones.json format: expected list or dict with zones key"
    | _ => Except.error "Invalid zones.json format: expected list or dict with zones key"

/-- Modelled from the spec (section 6 file format): one zone record is valid
when it is an object carrying `zone_id` and `name` strings and the four
numeric bounds. -/
def specZoneRecordValid (j : Json) : Bool :=
  match j with
  | Json.obj fields =>
    ((fields.lookup "zone_id").bind getStr).isSome &&
    ((fields.lookup "name").bind getStr).isSome &&
    ((fields.lookup "min_lat").bind getNum).isSome &&
    ((fields.lookup "max_lat").bind getNum).isSome &&
    ((fields.lookup "min_lng").bind getNum).isSome &&
    ((fields.lookup "max_lng").bind getNum).isSome
  | _ => false

/-- Modelled from the spec (sections 4.2 and 6): the two accepted shapes
are a top-level list of valid zone records, or an object whose `zones`
key maps to such a list. -/
def specValidZonesData (j : Json) : Bool :=
  match j with
  | Json.arr items => items.all specZoneRecordValid
  | Json.obj fields =>
    match fields.lookup "zones" with
    | some (Json.arr items) => items.all specZoneRecordValid
    | _ => false
  | _ => false

/-- One zone record as the code accepts it: `zone_id` and `name` strings
and the four bounds lax-coercible floats (pydantic v2 lax validation). -/
def laxZoneRecordValid (j : Json) : Bool :=
  match j with
  | Json.obj fields =>
    ((fields.lookup "zone_id").bind getStr).isSome &&
    ((fields.lookup "name").bind getStr).isSome &&
    ((fields.lookup "min_lat").bind laxCoerceFloat).isSome &&
    ((fields.lookup "max_lat").bind laxCoerceFloat).isSome &&
    ((fields.lookup "min_lng").bind laxCoerceFloat).isSome &&
    ((fields.lookup "max_lng").bind laxCoerceFloat).isSome
  | _ => false

/-- The two accepted shapes with lax-validated records: a top-level list,
or an object whose `zones` key maps to such a list. -/
def laxValidZonesData (j : Json) : Bool :=
  match j with
  | Json.arr items => items.all laxZoneRecordValid
  | Json.obj fields =>
    match fields.lookup "zones" with
    | some (Json.arr items) => items.all laxZoneRecordValid
    | _ => false
  | _ => false

/-- A zones file whose four bound fields are numeric strings: pydantic lax
validation coerces them, so the program loads this file, although its
records are not spec-typed (the bounds are strings, not numbers). -/
def strBoundsFile : Json :=
  Json.arr [Json.obj
    [("zone_id", Json.str "z"), ("name", Json.str "n"),
     ("min_lat", Json.str "37.5"), ("max_lat", Json.str "38"),
     ("min_lng", Json.str "-122.5"), ("max_lng", Json.str "-122")]]

/-- Suffix of the most recent `n` entries (the Python slice `l[-n:]`,
which is all of `l` when `l` is no longer than `n`). -/
def lastN (n : ℕ) (l : List α) : List α := l.drop (l.length - n)

/-- The transition records appended by a sequence of `update_zone` calls
starting from current zone `cz`, in chronological order. -/
def genRecords (cz : Option String) : List (Option String × ZoneTransition × ℕ) →
    List TransitionRecord
  | [] => []
  | (z, tr, ts) :: rest => ⟨tr, cz, z, ts⟩ :: genRecords z rest

/-- Fold a list of `update_zone` calls over a vehicle state. -/
def apply_zone_updates (s : VehicleState)
    (l : List (Option String × ZoneTransition × ℕ)) : VehicleState :=
  l.foldl (fun st x => st.update_zone x.1 x.2.1 x.2.2) s

/-- Every vehicle in the store has at most 100 history entries. -/
def histBound (m : StateManager) : Prop :=
  ∀ vid st, m.vehicles.lookup vid = some st → st.transition_history.length ≤ 100

/-- Every stored occupancy count is non-negative. -/
def countsNonneg (m : StateManager) : Prop :=
  ∀ z c, m.zone_counts.lookup z = some c → 0 ≤ c

theorem lookup_cons_str (k k1 : String) (v1 : α) (rest : List (String × α)) :
    ((k1, v1) :: rest).lookup k = if k = k1 then some v1 else rest.lookup k := by
  rw [List.lookup_cons]
  cases hbeq : k == k1 with
  | false => simp [beq_eq_false_iff_ne.mp hbeq]
  | true => simp [beq_iff_eq.mp hbeq]

theorem lookup_setPair (l : List (String × α)) (k : String) (v : α) (k' : String) :
    (setPair l k v).lookup k' = if k' = k then some v else l.lookup k' := by
  induction l with
  | nil =>
    simp only [setPair, lookup_cons_str, List.lookup_nil]
  | cons p rest ih =>
    obtain ⟨k1, v1⟩ := p
    by_cases h1 : k1 = k
    · subst h1
      by_cases h : k' = k1 <;> simp [setPair, lookup_cons_str, h]
    · simp only [setPair, if_neg h1, lookup_cons_str, ih]
      by_cases h : k' = k1
      · subst h
        simp [h1]
      · simp [h]

theorem setPair_setPair (l : List (String × α)) (k : String) (v w : α) :
    setPair (setPair l k v) k w = setPair l k w := by
  induction l with
  | nil => simp [setPair]
  | cons p rest ih =>
    obtain ⟨k1, v1⟩ := p
    by_cases h1 : k1 = k
    · subst h1; simp [setPair]
    · simp [setPair, h1, ih]

theorem lookup_append_pair (l : List (String × α)) (k k' : String) (v : α) :
    (l ++ [(k, v)]).lookup k' =
      match l.lookup k' with
      | some w => some w
      | none => if k' = k then some v else none := by
  induction l with
  | nil =>
    simp only [List.nil_append, lookup_cons_str, List.lookup_nil]
  | cons p rest ih =>
    obtain ⟨k1, v1⟩ := p
    by_cases h : k' = k1
    · simp [List.cons_append, lookup_cons_str, h]
    · simp [List.cons_append, lookup_cons_str, h, ih]

theorem get_vehicle_counts (m : StateManager) (vid : String) :
    (m.get_vehicle vid).2.zone_counts = m.zone_counts := by
  unfold StateManager.get_vehicle
  cases h : m.vehicles.lookup vid <;> simp [h]

theorem get_vehicle_of_some (m : StateManager) (vid : String) (st : VehicleState)
    (h : m.vehicles.lookup vid = some st) : m.get_vehicle vid = (st, m) := by
  unfold StateManager.get_vehicle
  simp [h]

theorem get_vehicle_of_none (m : StateManager) (vid : String)
    (h : m.vehicles.lookup vid = none) :
    m.get_vehicle vid = (VehicleState.init vid,
      { m with vehicles := m.vehicles ++ [(vid, VehicleState.init vid)] }) := by
  unfold StateManager.get_vehicle
  simp [h]

theorem get_vehicle_lookup_self (m : StateManager) (vid : String) :
    (m.get_vehicle vid).2.vehicles.lookup vid = some (m.get_vehicle vid).1 := by
  cases h : m.vehicles.lookup vid with
  | some st => rw [get_vehicle_of_some m vid st h]; exact h
  | none =>
    rw [get_vehicle_of_none m vid h]
    simp [lookup_append_pair, h]

theorem get_vehicle_lookup_ne (m : StateManager) (vid vid' : String) (h : vid' ≠ vid) :
    (m.get_vehicle vid).2.vehicles.lookup vid' = m.vehicles.lookup vid' := by
  cases hl : m.vehicles.lookup vid with
  | some st => rw [get_vehicle_of_some m vid st hl]
  | none =>
    rw [get_vehicle_of_none m vid hl]
    simp only [lookup_append_pair, if_neg h]
    cases m.vehicles.lookup vid' <;> rfl

theorem decOldCount_vehicles (m : StateManager) (o : Option String) :
    (decOldCount m o).vehicles = m.vehicles := by
  cases o with
  | none => rfl
  | some z => by_cases h : z = "" <;> simp [decOldCount, h]

theorem incNewCount_vehicles (m : StateManager) (n : Option String) :
    (incNewCount m n).vehicles = m.vehicles := by
  cases n with
  | none => rfl
  | some z => by_cases h : z = "" <;> simp [incNewCount, h]

theorem update_zone_count_vehicles (m : StateManager) (o n : Option String) :
    (m.update_zone_count o n).vehicles = m.vehicles := by
  unfold StateManager.update_zone_count
  rw [incNewCount_vehicles, decOldCount_vehicles]

theorem update_location_fields (s : VehicleState) (lat lng : PyFloat) (ts : ℕ) :
    (s.update_location lat lng ts).current_zone = s.current_zone ∧
    (s.update_location lat lng ts).transition_history = s.transition_history ∧
    (s.update_location lat lng ts).last_latitude = some lat ∧
    (s.update_location lat lng ts).last_longitude = some lng ∧
    (s.update_location lat lng ts).last_update = some ts := by
  refine ⟨rfl, rfl, rfl, rfl, rfl⟩

theorem update_location_idem (s : VehicleState) (lat lng : PyFloat) (ts : ℕ) :
    (s.update_location lat lng ts).update_location lat lng ts = s.update_location lat lng ts :=
  rfl

theorem update_zone_history (s : VehicleState) (z : Option String) (tr : ZoneTransition)
    (ts : ℕ) : (s.update_zone z tr ts).transition_history =
      lastN 100 (s.transition_history ++ [TransitionRecord.mk tr s.current_zone z ts]) := by
  by_cases h :
      (s.transition_history ++ [TransitionRecord.mk tr s.current_zone z ts]).length > 100
  · simp only [VehicleState.update_zone, lastN, if_pos h]
  · simp only [VehicleState.update_zone, lastN, if_neg h]
    rw [Nat.sub_eq_zero_iff_le.mpr (by omega), List.drop_zero]

theorem update_zone_current (s : VehicleState) (z : Option String) (tr : ZoneTransition)
    (ts : ℕ) : (s.update_zone z tr ts).current_zone = z := rfl

theorem length_lastN (n : ℕ) (l : List α) : (lastN n l).length = min n l.length := by
  unfold lastN
  rw [List.length_drop]
  omega

theorem lastN_of_le (n : ℕ) (l : List α) (h : l.length ≤ n) : lastN n l = l := by
  unfold lastN
  have h0 : l.length - n = 0 := by omega
  simp [h0]

theorem lastN_append_lastN (n : ℕ) (xs ys : List α) :
    lastN n (lastN n xs ++ ys) = lastN n (xs ++ ys) := by
  by_cases h : xs.length ≤ n
  · rw [lastN_of_le n xs h]
  · have hk : xs.length - n ≤ xs.length := Nat.sub_le _ _
    unfold lastN
    rw [← List.drop_append_of_le_length hk, List.drop_drop]
    simp only [List.length_drop, List.length_append]
    congr 1
    omega

theorem update_zone_hist_le (s : VehicleState) (z : Option String) (tr : ZoneTransition)
    (ts : ℕ) : (s.update_zone z tr ts).transition_history.length ≤ 100 := by
  rw [update_zone_history, length_lastN]
  omega

theorem process_eq_none (zones : List Zone) (now : ℕ) (m : StateManager) (e : LocationEvent)
    (h : classifyTransition (m.get_vehicle e.vehicle_id).1.current_zone
      ((find_zone (normalize_coordinate e.latitude) (normalize_coordinate e.longitude)
        zones).map Zone.zone_id) = none) :
    process_location_event zones now m e =
      (((find_zone (normalize_coordinate e.latitude) (normalize_coordinate e.longitude)
          zones).map Zone.zone_id, none),
       { (m.get_vehicle e.vehicle_id).2 with vehicles :=
           (setPair (m.get_vehicle e.vehicle_id).2.vehicles e.vehicle_id
             ((m.get_vehicle e.vehicle_id).1.update_location
               (normalize_coordinate e.latitude) (normalize_coordinate e.longitude)
               (e.timestamp.getD now))) }) := by
  unfold process_location_event
  simp only [h]

theorem process_eq_some (zones : List Zone) (now : ℕ) (m : StateManager) (e : LocationEvent)
    (tr : ZoneTransition)
    (h : classifyTransition (m.get_vehicle e.vehicle_id).1.current_zone
      ((find_zone (normalize_coordinate e.latitude) (normalize_coordinate e.longitude)
        zones).map Zone.zone_id) = some tr) :
    process_location_event zones now m e =
      (((find_zone (normalize_coordinate e.latitude) (normalize_coordinate e.longitude)
          zones).map Zone.zone_id, some tr),
       StateManager.update_zone_count
         { (m.get_vehicle e.vehicle_id).2 with vehicles :=
             (setPair (m.get_vehicle e.vehicle_id).2.vehicles e.vehicle_id
               (((m.get_vehicle e.vehicle_id).1.update_location
                 (normalize_coordinate e.latitude) (normalize_coordinate e.longitude)
                 (e.timestamp.getD now)).update_zone
                   ((find_zone (normalize_coordinate e.latitude)
                     (normalize_coordinate e.longitude) zones).map Zone.zone_id)
                   tr (e.timestamp.getD now))) }
         (m.get_vehicle e.vehicle_id).1.current_zone
         ((find_zone (normalize_coordinate e.latitude) (normalize_coordinate e.longitude)
           zones).map Zone.zone_id)) := by
  unfold process_location_event
  simp only [h]

theorem process_transition_eq (zones : List Zone) (now : ℕ) (m : StateManager)
    (e : LocationEvent) :
    (process_location_event zones now m e).1.2 =
      classifyTransition (m.get_vehicle e.vehicle_id).1.current_zone
        ((find_zone (normalize_coordinate e.latitude) (normalize_coordinate e.longitude)
          zones).map Zone.zone_id) := by
  cases h : classifyTransition (m.get_vehicle e.vehicle_id).1.current_zone
      ((find_zone (normalize_coordinate e.latitude) (normalize_coordinate e.longitude)
        zones).map Zone.zone_id) with
  | none => rw [process_eq_none zones now m e h]
  | some tr => rw [process_eq_some zones now m e tr h]

/-- C1: the transition classification inside `process_location_event` is
exactly the spec's table — old absent and new present yields ENTER; old
present and new absent yields EXIT; both present and different yields
CHANGE; both absent or both present and equal yields no transition — and
the transition returned by `process_location_event` is this pure function
applied to the stored previous zone and the freshly located zone, nothing
else of the vehicle's history. -/
theorem c1_transition_table :
    (classifyTransition none none = none) ∧
    (∀ z : String, classifyTransition none (some z) = some ZoneTransition.ENTER) ∧
    (∀ z : String, classifyTransition (some z) none = some ZoneTransition.EXIT) ∧
    (∀ z : String, classifyTransition (some z) (some z) = none) ∧
    (∀ z1 z2 : String, z1 ≠ z2 →
      classifyTransition (some z1) (some z2) = some ZoneTransition.CHANGE) ∧
    (∀ zones now m e, (process_location_event zones now m e).1.2 =
      classifyTransition (m.get_vehicle e.vehicle_id).1.current_zone
        ((find_zone (normalize_coordinate e.latitude) (normalize_coordinate e.longitude)
          zones).map Zone.zone_id)) := by
  refine ⟨by simp [classifyTransition], ?_, ?_, ?_, ?_, process_transition_eq⟩
  · intro z; simp [classifyTransition]
  · intro z; simp [classifyTransition]
  · intro z; simp [classifyTransition]
  · intro z1 z2 h; simp [classifyTransition, h]

theorem c1_transition_table_witness :
    classifyTransition (some "zone_1") (some "zone_2") = some ZoneTransition.CHANGE :=
  c1_transition_table.2.2.2.2.1 "zone_1" "zone_2" (by decide)

theorem find_zone_some (lat lng : PyFloat) (zones : List Zone) (z : Zone)
    (h : find_zone lat lng zones = some z) :
    z.contains lat lng = true ∧
    ∃ l1 l2, zones = l1 ++ z :: l2 ∧ ∀ z2 ∈ l1, z2.contains lat lng = false := by
  induction zones with
  | nil => simp [find_zone] at h
  | cons z0 rest ih =>
    by_cases h0 : z0.contains lat lng = true
    · rw [find_zone, if_pos h0] at h
      obtain rfl : z0 = z := by injection h
      exact ⟨h0, [], rest, rfl, by simp⟩
    · rw [find_zone, if_neg h0] at h
      obtain ⟨hc, l1, l2, hz, hall⟩ := ih h
      refine ⟨hc, z0 :: l1, l2, by rw [hz, List.cons_append], ?_⟩
      intro z2 hz2
      rcases List.mem_cons.mp hz2 with h2 | h2
      · subst h2
        exact Bool.eq_false_iff.mpr (fun hb => h0 hb)
      · exact hall z2 h2

theorem find_zone_none (lat lng : PyFloat) (zones : List Zone)
    (h : find_zone lat lng zones = none) :
    ∀ z ∈ zones, z.contains lat lng = false := by
  induction zones with
  | nil => simp
  | cons z0 rest ih =>
    by_cases h0 : z0.contains lat lng = true
    · rw [find_zone, if_pos h0] at h
      exact absurd h (by simp)
    · rw [find_zone, if_neg h0] at h
      intro z hz
      rcases List.mem_cons.mp hz with h2 | h2
      · subst h2
        exact Bool.eq_false_iff.mpr (fun hb => h0 hb)
      · exact ih h z h2

theorem contains_iff (z : Zone) (p q : ℚ) :
    z.contains (PyFloat.finite p) (PyFloat.finite q) = true ↔
      (z.min_lat ≤ p ∧ p ≤ z.max_lat ∧ z.min_lng ≤ q ∧ q ≤ z.max_lng) := by
  simp [Zone.contains, pyLe, Bool.and_eq_true, decide_eq_true_iff, and_assoc]

/-- C2: `find_zone` returns the first zone in catalog order whose rectangle
contains the point with inclusive comparisons on all four edges, and `none`
when no zone contains it; a point exactly on any of the four bounds of a
zone is inside it, and on overlap the earliest-listed zone wins. -/
theorem c2_find_zone_first_inclusive :
    (∀ lat lng : PyFloat, ∀ zones : List Zone, ∀ z : Zone,
      find_zone lat lng zones = some z →
        z.contains lat lng = true ∧
        ∃ l1 l2, zones = l1 ++ z :: l2 ∧ ∀ z2 ∈ l1, z2.contains lat lng = false) ∧
    (∀ lat lng : PyFloat, ∀ zones : List Zone,
      find_zone lat lng zones = none → ∀ z ∈ zones, z.contains lat lng = false) ∧
    (∀ z : Zone, ∀ p q : ℚ,
      z.contains (PyFloat.finite p) (PyFloat.finite q) = true ↔
        (z.min_lat ≤ p ∧ p ≤ z.max_lat ∧ z.min_lng ≤ q ∧ q ≤ z.max_lng)) ∧
    (∀ z : Zone, ∀ q : ℚ, z.min_lat ≤ z.max_lat → z.min_lng ≤ q → q ≤ z.max_lng →
      z.contains (PyFloat.finite z.min_lat) (PyFloat.finite q) = true ∧
      z.contains (PyFloat.finite z.max_lat) (PyFloat.finite q) = true) ∧
    (∀ z : Zone, ∀ p : ℚ, z.min_lng ≤ z.max_lng → z.min_lat ≤ p → p ≤ z.max_lat →
      z.contains (PyFloat.finite p) (PyFloat.finite z.min_lng) = true ∧
      z.contains (PyFloat.finite p) (PyFloat.finite z.max_lng) = true) := by
  refine ⟨find_zone_some, find_zone_none, contains_iff, ?_, ?_⟩
  · intro z q h1 h2 h3
    exact ⟨(contains_iff z z.min_lat q).mpr ⟨le_refl _, h1, h2, h3⟩,
           (contains_iff z z.max_lat q).mpr ⟨h1, le_refl _, h2, h3⟩⟩
  · intro z p h1 h2 h3
    exact ⟨(contains_iff z p z.min_lng).mpr ⟨h2, h3, le_refl _, h1⟩,
           (contains_iff z p z.max_lng).mpr ⟨h2, h3, h1, le_refl _⟩⟩

theorem c2_find_zone_first_inclusive_witness :
    ((get_default_zones.head?.map Zone.contains).map (fun f =>
      f (PyFloat.finite 37.7749) (PyFloat.finite (-122.41))) = some true) ∧
    (∃ z : Zone, find_zone (PyFloat.finite 37.78) (PyFloat.finite (-122.41))
        get_default_zones = some z ∧ z.contains (PyFloat.finite 37.78)
        (PyFloat.finite (-122.41)) = true) := by
  constructor
  · have hb : (37.7749 : ℚ) ≤ 37.7849 := of_decide_eq_true (by with_unfolding_all rfl)
    have h1 : (-122.4194 : ℚ) ≤ -122.41 := of_decide_eq_true (by with_unfolding_all rfl)
    have h2 : (-122.41 : ℚ) ≤ -122.4094 := of_decide_eq_true (by with_unfolding_all rfl)
    have := (c2_find_zone_first_inclusive.2.2.2.1
      (Zone.mk "zone_1" "Downtown" 37.7749 37.7849 (-122.4194) (-122.4094))
      (-122.41) hb h1 h2).1
    simpa [get_default_zones] using this
  · refine ⟨Zone.mk "zone_1" "Downtown" 37.7749 37.7849 (-122.4194) (-122.4094), ?_, ?_⟩
    · with_unfolding_all rfl
    · exact (c2_find_zone_first_inclusive.1 (PyFloat.finite 37.78) (PyFloat.finite (-122.41))
        get_default_zones _ (by with_unfolding_all rfl)).1

theorem token_parse (cs : List Char) (h : String.mk cs ∈ invalidTokens) :
    parsePyFloat cs = none ∨ parsePyFloat cs = some PyFloat.nan := by
  simp only [invalidTokens, List.mem_cons, List.not_mem_nil, or_false] at h
  rcases h with h | h | h | h | h | h <;>
    · have hc : cs = _ := congrArg String.data h
      rw [hc]
      decide

theorem token_not_finite (s : String) (q : ℚ)
    (h : parsePyFloat (stripUpper s) = some (PyFloat.finite q)) :
    ¬(String.mk (stripUpper s) ∈ invalidTokens) := by
  intro hmem
  rcases token_parse _ hmem with h2 | h2 <;> rw [h] at h2 <;> simp at h2

/-- C3: `normalize_coordinate` implements exactly the spec's algorithm:
null input, any trimmed-and-uppercased member of the fixed invalid-token
set, and any string that fails numeric parsing yield exactly 0.0; a parsed
value whose absolute value exceeds 180 (infinities included) yields 0.0;
and a parsed finite value with absolute value at most 180 is returned
exactly. -/
theorem c3_normalize_algorithm :
    (normalize_coordinate none = PyFloat.finite 0) ∧
    (∀ s : String, String.mk (stripUpper s) ∈ invalidTokens →
      normalize_coordinate (some s) = PyFloat.finite 0) ∧
    (∀ s : String, parsePyFloat (stripUpper s) = none →
      normalize_coordinate (some s) = PyFloat.finite 0) ∧
    (∀ s : String, ∀ q : ℚ, parsePyFloat (stripUpper s) = some (PyFloat.finite q) →
      180 < |q| → normalize_coordinate (some s) = PyFloat.finite 0) ∧
    (∀ s : String, parsePyFloat (stripUpper s) = some PyFloat.inf ∨
      parsePyFloat (stripUpper s) = some PyFloat.neginf →
      normalize_coordinate (some s) = PyFloat.finite 0) ∧
    (∀ s : String, ∀ q : ℚ, parsePyFloat (stripUpper s) = some (PyFloat.finite q) →
      |q| ≤ 180 → normalize_coordinate (some s) = PyFloat.finite q) := by
  refine ⟨rfl, ?_, ?_, ?_, ?_, ?_⟩
  · intro s h
    simp [normalize_coordinate, h]
  · intro s h
    by_cases ht : String.mk (stripUpper s) ∈ invalidTokens
    · simp [normalize_coordinate, ht]
    · simp [normalize_coordinate, ht, h]
  · intro s q h hq
    have ht := token_not_finite s q h
    simp [normalize_coordinate, ht, h, pyAbsGT180, hq]
  · intro s h
    have ht : ¬(String.mk (stripUpper s) ∈ invalidTokens) := by
      intro hmem
      rcases token_parse _ hmem with h2 | h2 <;>
        rcases h with h | h <;> rw [h] at h2 <;> simp at h2
    rcases h with h | h <;> simp [normalize_coordinate, ht, h, pyAbsGT180]
  · intro s q h hq
    have ht := token_not_finite s q h
    have hlt : ¬(180 < |q|) := not_lt.mpr hq
    simp [normalize_coordinate, ht, h, pyAbsGT180, hlt]

theorem c3_normalize_algorithm_witness :
    normalize_coordinate (some "  nan ") = PyFloat.finite 0 ∧
    normalize_coordinate (some "abc") = PyFloat.finite 0 ∧
    normalize_coordinate (some "190.5") = PyFloat.finite 0 ∧
    normalize_coordinate (some "inf") = PyFloat.finite 0 ∧
    normalize_coordinate (some "-45.5") = PyFloat.finite (-455 / 10) :=
  ⟨c3_normalize_algorithm.2.1 "  nan " (by decide),
   c3_normalize_algorithm.2.2.1 "abc" (by decide),
   c3_normalize_algorithm.2.2.2.1 "190.5" (1905 / 10) (by with_unfolding_all rfl)
     (of_decide_eq_true (by with_unfolding_all rfl)),
   c3_normalize_algorithm.2.2.2.2.1 "inf" (Or.inl (by decide)),
   c3_normalize_algorithm.2.2.2.2.2 "-45.5" (-455 / 10) (by with_unfolding_all rfl)
     (of_decide_eq_true (by with_unfolding_all rfl))⟩

/-- C4: the claim says `normalize_coordinate` never fails and always returns
a finite value.  Totality holds by construction, but the input "+nan"
parses as NaN, the range check `abs(value) > 180` is false for NaN, and the
function returns NaN — a non-finite result. -/
theorem c4_nan_escapes :
    normalize_coordinate (some "+nan") = PyFloat.nan ∧
    (∀ q : ℚ, normalize_coordinate (some "+nan") ≠ PyFloat.finite q) := by
  refine ⟨by decide, ?_⟩
  intro q h
  rw [show normalize_coordinate (some "+nan") = PyFloat.nan from by decide] at h
  exact PyFloat.noConfusion h

theorem genRecords_length (cz : Option String)
    (l : List (Option String × ZoneTransition × ℕ)) :
    (genRecords cz l).length = l.length := by
  induction l generalizing cz with
  | nil => rfl
  | cons x rest ih =>
    obtain ⟨z, tr, ts⟩ := x
    simp [genRecords, ih]

theorem apply_zone_updates_history (l : List (Option String × ZoneTransition × ℕ))
    (s : VehicleState) (h : s.transition_history.length ≤ 100) :
    (apply_zone_updates s l).transition_history =
      lastN 100 (s.transition_history ++ genRecords s.current_zone l) := by
  induction l generalizing s with
  | nil =>
    simp [apply_zone_updates, genRecords, lastN_of_le _ _ h]
  | cons x rest ih =>
    obtain ⟨z, tr, ts⟩ := x
    have step : apply_zone_updates s ((z, tr, ts) :: rest) =
        apply_zone_updates (s.update_zone z tr ts) rest := rfl
    rw [step, ih (s.update_zone z tr ts) (update_zone_hist_le s z tr ts)]
    rw [update_zone_history, update_zone_current, lastN_append_lastN]
    simp [genRecords, List.append_assoc]

theorem histBound_of_state (m : StateManager) (e : LocationEvent) (h : histBound m)
    (vid : String) (st : VehicleState)
    (hst : (m.get_vehicle e.vehicle_id).2.vehicles.lookup vid = some st) :
    st.transition_history.length ≤ 100 := by
  by_cases hv : vid = e.vehicle_id
  · subst hv
    rw [get_vehicle_lookup_self] at hst
    injection hst with hst
    cases hl : m.vehicles.lookup e.vehicle_id with
    | some st0 =>
      rw [get_vehicle_of_some m e.vehicle_id st0 hl] at hst
      rw [← hst]
      exact h e.vehicle_id st0 hl
    | none =>
      rw [get_vehicle_of_none m e.vehicle_id hl] at hst
      rw [← hst]
      simp [VehicleState.init]
  · rw [get_vehicle_lookup_ne m e.vehicle_id vid hv] at hst
    exact h vid st hst

theorem process_histBound (zones : List Zone) (now : ℕ) (m : StateManager)
    (e : LocationEvent) (h : histBound m) :
    histBound (process_location_event zones now m e).2 := by
  cases hc : classifyTransition (m.get_vehicle e.vehicle_id).1.current_zone
      ((find_zone (normalize_coordinate e.latitude) (normalize_coordinate e.longitude)
        zones).map Zone.zone_id) with
  | none =>
    rw [process_eq_none zones now m e hc]
    intro vid st hst
    simp only [lookup_setPair] at hst
    by_cases hv : vid = e.vehicle_id
    · rw [if_pos hv] at hst
      injection hst with hst
      rw [← hst]
      have hlen := histBound_of_state m e h e.vehicle_id _
        (get_vehicle_lookup_self m e.vehicle_id)
      simpa [VehicleState.update_location] using hlen
    · rw [if_neg hv] at hst
      exact histBound_of_state m e h vid st hst
  | some tr =>
    rw [process_eq_some zones now m e tr hc]
    intro vid st hst
    simp only [update_zone_count_vehicles, lookup_setPair] at hst
    by_cases hv : vid = e.vehicle_id
    · rw [if_pos hv] at hst
      injection hst with hst
      rw [← hst]
      exact update_zone_hist_le _ _ _ _
    · rw [if_neg hv] at hst
      exact histBound_of_state m e h vid st hst

theorem process_events_histBound (zones : List Zone) (m : StateManager)
    (events : List (ℕ × LocationEvent)) (h : histBound m) :
    histBound (process_events zones m events) := by
  induction events generalizing m with
  | nil => exact h
  | cons ev rest ih =>
    exact ih (process_location_event zones ev.1 m ev.2).2
      (process_histBound zones ev.1 m ev.2 h)

/-- C5: a vehicle's transition history never exceeds 100 entries after any
sequence of processed events; each transition appends one record at the end
and the oldest records are dropped on overflow; after 150 consecutive
transition-producing updates from an empty history exactly the newest 100
records remain, in chronological order. -/
theorem c5_history_capped :
    (∀ (s : VehicleState) (z : Option String) (tr : ZoneTransition) (ts : ℕ),
      (s.update_zone z tr ts).transition_history =
        lastN 100 (s.transition_history ++ [TransitionRecord.mk tr s.current_zone z ts]) ∧
      (s.update_zone z tr ts).transition_history.length ≤ 100) ∧
    (∀ zones m events, histBound m → histBound (process_events zones m events)) ∧
    (∀ (l : List (Option String × ZoneTransition × ℕ)) (s : VehicleState),
      s.transition_history = [] → l.length = 150 →
      (apply_zone_updates s l).transition_history =
        (genRecords s.current_zone l).drop 50 ∧
      (apply_zone_updates s l).transition_history.length = 100) := by
  refine ⟨fun s z tr ts => ⟨update_zone_history s z tr ts, update_zone_hist_le s z tr ts⟩,
    process_events_histBound, ?_⟩
  intro l s h0 h150
  have hle : s.transition_history.length ≤ 100 := by rw [h0]; simp
  have hmain := apply_zone_updates_history l s hle
  rw [h0, List.nil_append] at hmain
  have hlen : (genRecords s.current_zone l).length = 150 := by
    rw [genRecords_length, h150]
  constructor
  · rw [hmain]
    unfold lastN
    rw [hlen]
  · rw [hmain, length_lastN, hlen]
    omega

theorem c5_history_capped_witness :
    histBound (process_events get_default_zones (StateManager.mk [] []) []) ∧
    (apply_zone_updates (VehicleState.init "v")
      (List.replicate 150 (some "z", ZoneTransition.ENTER, 0))).transition_history.length
      = 100 := by
  constructor
  · exact c5_history_capped.2.1 get_default_zones (StateManager.mk [] []) []
      (fun vid st h => absurd h (by simp))
  · exact (c5_history_capped.2.2 (List.replicate 150 (some "z", ZoneTransition.ENTER, 0))
      (VehicleState.init "v") rfl (by simp)).2


theorem counts_setPair_nonneg (l : List (String × ℤ))
    (hl : ∀ z c, l.lookup z = some c → 0 ≤ c) (k : String) (v : ℤ) (hv : 0 ≤ v) :
    ∀ z c, (setPair l k v).lookup z = some c → 0 ≤ c := by
  intro z c h
  rw [lookup_setPair] at h
  by_cases hz : z = k
  · rw [if_pos hz] at h
    injection h with h
    omega
  · rw [if_neg hz] at h
    exact hl z c h

theorem counts_getD_nonneg (l : List (String × ℤ))
    (hl : ∀ z c, l.lookup z = some c → 0 ≤ c) (z : String) :
    0 ≤ (l.lookup z).getD 0 := by
  cases h : l.lookup z with
  | none => simp
  | some c => simpa using hl z c h

theorem decOldCount_nonneg (m : StateManager) (o : Option String)
    (h : countsNonneg m) : countsNonneg (decOldCount m o) := by
  cases o with
  | none => exact h
  | some z1 =>
    by_cases h1 : z1 = ""
    · simpa [decOldCount, h1] using h
    · intro z c hl
      simp only [decOldCount, ne_eq, h1, not_false_eq_true, if_true] at hl
      exact counts_setPair_nonneg m.zone_counts h z1 _ (le_max_left 0 _) z c hl

theorem incNewCount_nonneg (m : StateManager) (n : Option String)
    (h : countsNonneg m) : countsNonneg (incNewCount m n) := by
  cases n with
  | none => exact h
  | some z2 =>
    by_cases h2 : z2 = ""
    · simpa [incNewCount, h2] using h
    · intro z c hl
      simp only [incNewCount, ne_eq, h2, not_false_eq_true, if_true] at hl
      refine counts_setPair_nonneg m.zone_counts h z2 _ ?_ z c hl
      have := counts_getD_nonneg m.zone_counts h z2
      omega

theorem countsNonneg_update (m : StateManager) (o n : Option String)
    (h : countsNonneg m) : countsNonneg (m.update_zone_count o n) :=
  incNewCount_nonneg _ n (decOldCount_nonneg m o h)

theorem countsNonneg_congr (m m' : StateManager) (h : m'.zone_counts = m.zone_counts)
    (hm : countsNonneg m) : countsNonneg m' := by
  intro z c hl
  rw [h] at hl
  exact hm z c hl

theorem process_countsNonneg (zones : List Zone) (now : ℕ) (m : StateManager)
    (e : LocationEvent) (h : countsNonneg m) :
    countsNonneg (process_location_event zones now m e).2 := by
  cases hc : classifyTransition (m.get_vehicle e.vehicle_id).1.current_zone
      ((find_zone (normalize_coordinate e.latitude) (normalize_coordinate e.longitude)
        zones).map Zone.zone_id) with
  | none =>
    rw [process_eq_none zones now m e hc]
    exact countsNonneg_congr m _ (get_vehicle_counts m e.vehicle_id) h
  | some tr =>
    rw [process_eq_some zones now m e tr hc]
    refine countsNonneg_update _ _ _ ?_
    exact countsNonneg_congr m _ (get_vehicle_counts m e.vehicle_id) h

theorem process_events_countsNonneg (zones : List Zone) (m : StateManager)
    (events : List (ℕ × LocationEvent)) (h : countsNonneg m) :
    countsNonneg (process_events zones m events) := by
  induction events generalizing m with
  | nil => exact h
  | cons ev rest ih =>
    exact ih (process_location_event zones ev.1 m ev.2).2
      (process_countsNonneg zones ev.1 m ev.2 h)

/-- C6: every zone's occupancy count is non-negative in every reachable
state: `update_zone_count` floors the decrement at zero (also when the
stored count is already zero or the zone absent), so no sequence of updates
or processed events drives a count below zero. -/
theorem c6_counts_nonneg :
    (∀ m o n, countsNonneg m → countsNonneg (m.update_zone_count o n)) ∧
    (∀ m z, countsNonneg m → 0 ≤ (m.update_zone_count (some z) none).get_zone_count z) ∧
    (∀ (m : StateManager) (z : String), (m.zone_counts.lookup z).getD 0 = 0 →
      (m.update_zone_count (some z) none).get_zone_count z = 0) ∧
    (∀ zones m events, countsNonneg m → countsNonneg (process_events zones m events)) ∧
    (∀ zones m events z, countsNonneg m →
      0 ≤ (process_events zones m events).get_zone_count z) := by
  refine ⟨countsNonneg_update, ?_, ?_, process_events_countsNonneg, ?_⟩
  · intro m z h
    exact counts_getD_nonneg _ (countsNonneg_update m (some z) none h) z
  · intro m z h0
    show (incNewCount (decOldCount m (some z)) none).get_zone_count z = 0
    by_cases h1 : z = ""
    · subst h1
      simp only [incNewCount, decOldCount, ne_eq, not_true_eq_false, if_false]
      exact h0
    · simp only [incNewCount, decOldCount, ne_eq, h1, not_false_eq_true, if_true]
      unfold StateManager.get_zone_count
      rw [lookup_setPair]
      simp [h0]
  · intro zones m events z h
    exact counts_getD_nonneg _ (process_events_countsNonneg zones m events h) z

theorem c6_counts_nonneg_witness :
    0 ≤ (StateManager.update_zone_count (StateManager.mk [] [("zone_1", 0)])
      (some "zone_1") none).get_zone_count "zone_1" ∧
    (StateManager.update_zone_count (StateManager.mk [] [("zone_1", 0)])
      (some "zone_1") none).get_zone_count "zone_1" = 0 := by
  constructor
  · exact c6_counts_nonneg.2.1 (StateManager.mk [] [("zone_1", 0)]) "zone_1"
      (fun z c h => by
        by_cases hz : z = "zone_1"
        · subst hz
          rw [lookup_cons_str, if_pos rfl] at h
          injection h with h
          omega
        · rw [lookup_cons_str, if_neg hz] at h
          exact absurd h (by simp))
  · exact c6_counts_nonneg.2.2.1 (StateManager.mk [] [("zone_1", 0)]) "zone_1" (by decide)

theorem update_zone_last_fields (s : VehicleState) (z : Option String)
    (tr : ZoneTransition) (ts : ℕ) :
    (s.update_zone z tr ts).last_latitude = s.last_latitude ∧
    (s.update_zone z tr ts).last_longitude = s.last_longitude ∧
    (s.update_zone z tr ts).last_update = s.last_update :=
  ⟨rfl, rfl, rfl⟩

/-- C8: `process_location_event` always sets the event vehicle's
`last_latitude` / `last_longitude` to the normalized coordinates and
`last_update` to the event timestamp (defaulting to the current time);
every other vehicle's state is unchanged; and the occupancy map is
unchanged whenever no transition occurred. -/
theorem c8_frame (zones : List Zone) (now : ℕ) (m : StateManager) (e : LocationEvent) :
    (∃ st, (process_location_event zones now m e).2.vehicles.lookup e.vehicle_id = some st ∧
      st.last_latitude = some (normalize_coordinate e.latitude) ∧
      st.last_longitude = some (normalize_coordinate e.longitude) ∧
      st.last_update = some (e.timestamp.getD now)) ∧
    (∀ vid, vid ≠ e.vehicle_id →
      (process_location_event zones now m e).2.vehicles.lookup vid =
        m.vehicles.lookup vid) ∧
    ((process_location_event zones now m e).1.2 = none →
      (process_location_event zones now m e).2.zone_counts = m.zone_counts) := by
  cases hc : classifyTransition (m.get_vehicle e.vehicle_id).1.current_zone
      ((find_zone (normalize_coordinate e.latitude) (normalize_coordinate e.longitude)
        zones).map Zone.zone_id) with
  | none =>
    rw [process_eq_none zones now m e hc]
    refine ⟨⟨(m.get_vehicle e.vehicle_id).1.update_location
      (normalize_coordinate e.latitude) (normalize_coordinate e.longitude)
      (e.timestamp.getD now), ?_, rfl, rfl, rfl⟩, ?_, ?_⟩
    · simp [lookup_setPair]
    · intro vid hv
      simp only [lookup_setPair, if_neg hv]
      exact get_vehicle_lookup_ne m e.vehicle_id vid hv
    · intro _
      exact get_vehicle_counts m e.vehicle_id
  | some tr =>
    rw [process_eq_some zones now m e tr hc]
    refine ⟨⟨((m.get_vehicle e.vehicle_id).1.update_location
      (normalize_coordinate e.latitude) (normalize_coordinate e.longitude)
      (e.timestamp.getD now)).update_zone
        ((find_zone (normalize_coordinate e.latitude) (normalize_coordinate e.longitude)
          zones).map Zone.zone_id) tr (e.timestamp.getD now), ?_, ?_, ?_, ?_⟩, ?_, ?_⟩
    · simp [update_zone_count_vehicles, lookup_setPair]
    · exact (update_zone_last_fields _ _ _ _).1
    · exact (update_zone_last_fields _ _ _ _).2.1
    · exact (update_zone_last_fields _ _ _ _).2.2
    · intro vid hv
      simp only [update_zone_count_vehicles, lookup_setPair, if_neg hv]
      exact get_vehicle_lookup_ne m e.vehicle_id vid hv
    · intro hnone
      exact absurd hnone (by simp)

theorem c8_frame_witness :
    (∃ st, (process_location_event get_default_zones 7 (StateManager.mk [] [])
        (LocationEvent.mk "v1" (some "37.78") (some "-122.41") none)).2.vehicles.lookup "v1"
        = some st ∧
      st.last_latitude = some (normalize_coordinate (some "37.78")) ∧
      st.last_longitude = some (normalize_coordinate (some "-122.41")) ∧
      st.last_update = some 7) ∧
    (process_location_event get_default_zones 7 (StateManager.mk [] [])
      (LocationEvent.mk "v1" (some "37.78") (some "-122.41") none)).2.vehicles.lookup "v2"
      = none := by
  have h := c8_frame get_default_zones 7 (StateManager.mk [] [])
    (LocationEvent.mk "v1" (some "37.78") (some "-122.41") none)
  exact ⟨h.1, by rw [h.2.1 "v2" (by decide)]; rfl⟩

/-- C7: processing an event that causes no zone change is idempotent with
respect to history and occupancy: re-processing the same no-transition
event yields no transition and leaves the whole state unchanged, the
occupancy counts equal those before the first processing, and every
vehicle's transition history and current zone are exactly as they were —
only the location fields and timestamp are rewritten. -/
theorem c7_no_transition_idempotent (zones : List Zone) (now : ℕ) (m : StateManager)
    (e : LocationEvent)
    (h : (process_location_event zones now m e).1.2 = none) :
    (process_location_event zones now (process_location_event zones now m e).2 e).1.2
      = none ∧
    (process_location_event zones now (process_location_event zones now m e).2 e).2 =
      (process_location_event zones now m e).2 ∧
    (process_location_event zones now m e).2.zone_counts = m.zone_counts ∧
    (∀ vid st', (process_location_event zones now m e).2.vehicles.lookup vid = some st' →
      st'.transition_history =
        (match m.vehicles.lookup vid with
          | some st => st.transition_history
          | none => []) ∧
      st'.current_zone =
        (match m.vehicles.lookup vid with
          | some st => st.current_zone
          | none => none)) := by
  rw [process_transition_eq] at h
  have hm1 := process_eq_none zones now m e h
  have hlk : (process_location_event zones now m e).2.vehicles.lookup e.vehicle_id
      = some ((m.get_vehicle e.vehicle_id).1.update_location
        (normalize_coordinate e.latitude) (normalize_coordinate e.longitude)
        (e.timestamp.getD now)) := by
    rw [hm1]
    simp [lookup_setPair]
  have hgv := get_vehicle_of_some _ _ _ hlk
  have hc2 : classifyTransition
      (((process_location_event zones now m e).2.get_vehicle e.vehicle_id).1).current_zone
      ((find_zone (normalize_coordinate e.latitude) (normalize_coordinate e.longitude)
        zones).map Zone.zone_id) = none := by
    rw [hgv]
    exact h
  have hm2 := process_eq_none zones now (process_location_event zones now m e).2 e hc2
  refine ⟨?_, ?_, ?_, ?_⟩
  · rw [hm2]
  · rw [hm2, hgv]
    dsimp only
    rw [hm1]
    dsimp only
    rw [update_location_idem, setPair_setPair]
  · rw [hm1]
    exact get_vehicle_counts m e.vehicle_id
  · intro vid st' hst'
    rw [hm1] at hst'
    dsimp only at hst'
    simp only [lookup_setPair] at hst'
    by_cases hv : vid = e.vehicle_id
    · rw [if_pos hv] at hst'
      injection hst' with hst'
      subst hv
      cases hl : m.vehicles.lookup e.vehicle_id with
      | some st0 =>
        rw [get_vehicle_of_some m e.vehicle_id st0 hl] at hst'
        rw [← hst']
        exact ⟨rfl, rfl⟩
      | none =>
        rw [get_vehicle_of_none m e.vehicle_id hl] at hst'
        rw [← hst']
        exact ⟨rfl, rfl⟩
    · rw [if_neg hv] at hst'
      rw [get_vehicle_lookup_ne m e.vehicle_id vid hv] at hst'
      rw [hst']
      exact ⟨rfl, rfl⟩

theorem c7_no_transition_idempotent_witness :
    (process_location_event get_default_zones 3
      (process_location_event get_default_zones 3 (StateManager.mk [] [])
        (LocationEvent.mk "v1" none none none)).2
      (LocationEvent.mk "v1" none none none)).2 =
    (process_location_event get_default_zones 3 (StateManager.mk [] [])
      (LocationEvent.mk "v1" none none none)).2 :=
  (c7_no_transition_idempotent get_default_zones 3 (StateManager.mk [] [])
    (LocationEvent.mk "v1" none none none) (by with_unfolding_all rfl)).2.1

/-- Ok/error discriminator for the modelled `load_zones` result. -/
def exceptIsOk : Except String (List Zone) → Bool
  | Except.ok _ => true
  | Except.error _ => false

theorem parseZoneRecord_isSome (j : Json) :
    (parseZoneRecord j).isSome = laxZoneRecordValid j := by
  cases j with
  | obj fields =>
    simp only [parseZoneRecord, laxZoneRecordValid]
    cases h1 : (fields.lookup "zone_id").bind getStr <;>
    cases h2 : (fields.lookup "name").bind getStr <;>
    cases h3 : (fields.lookup "min_lat").bind laxCoerceFloat <;>
    cases h4 : (fields.lookup "max_lat").bind laxCoerceFloat <;>
    cases h5 : (fields.lookup "min_lng").bind laxCoerceFloat <;>
    cases h6 : (fields.lookup "max_lng").bind laxCoerceFloat <;>
    simp [h1, h2, h3, h4, h5, h6]
  | null => rfl
  | bool b => rfl
  | num q => rfl
  | str s => rfl
  | arr a => rfl

theorem mapM_parseZone_isSome (items : List Json) :
    (items.mapM parseZoneRecord).isSome = items.all laxZoneRecordValid := by
  induction items with
  | nil => rfl
  | cons a l ih =>
    rw [List.mapM_cons, List.all_cons, ← parseZoneRecord_isSome, ← ih]
    cases parseZoneRecord a <;> cases l.mapM parseZoneRecord <;> simp

theorem exists_ok_iff (x : Except String (List Zone)) :
    (∃ zs, x = Except.ok zs) ↔ exceptIsOk x = true := by
  cases x <;> simp [exceptIsOk]

theorem exists_err_iff (x : Except String (List Zone)) :
    (∃ msg, x = Except.error msg) ↔ exceptIsOk x = false := by
  cases x <;> simp [exceptIsOk]

theorem load_zones_isOk (j : Json) :
    exceptIsOk (load_zones (some (some j))) = laxValidZonesData j := by
  cases j with
  | arr items =>
    simp only [load_zones, laxValidZonesData]
    rw [← mapM_parseZone_isSome items]
    cases h : items.mapM parseZoneRecord <;> simp [h, exceptIsOk]
  | obj fields =>
    simp only [load_zones, laxValidZonesData]
    cases hz : fields.lookup "zones" with
    | none => simp [exceptIsOk]
    | some jv =>
      cases jv with
      | arr items =>
        show exceptIsOk (match items.mapM parseZoneRecord with
          | some zs => Except.ok zs
          | none => Except.error "zone record validation failed")
          = items.all laxZoneRecordValid
        rw [← mapM_parseZone_isSome items]
        cases h : items.mapM parseZoneRecord <;> simp [h, exceptIsOk]
      | null => rfl
      | bool b => rfl
      | num q => rfl
      | str s => rfl
      | obj f2 => rfl
  | null => rfl
  | bool b => rfl
  | num q => rfl
  | str s => rfl

theorem getNum_le_lax (jv : Json) (h : (getNum jv).isSome = true) :
    (laxCoerceFloat jv).isSome = true := by
  cases jv <;> simp [getNum, laxCoerceFloat] at h ⊢

theorem bind_getNum_le_lax (o : Option Json) (h : (o.bind getNum).isSome = true) :
    (o.bind laxCoerceFloat).isSome = true := by
  cases o with
  | none => simp at h
  | some jv =>
    simp only [Option.some_bind] at h ⊢
    exact getNum_le_lax jv h

theorem specRecord_le_lax (j : Json) (h : specZoneRecordValid j = true) :
    laxZoneRecordValid j = true := by
  cases j with
  | obj fields =>
    simp only [specZoneRecordValid] at h
    rw [Bool.and_eq_true] at h
    obtain ⟨h, h6⟩ := h
    rw [Bool.and_eq_true] at h
    obtain ⟨h, h5⟩ := h
    rw [Bool.and_eq_true] at h
    obtain ⟨h, h4⟩ := h
    rw [Bool.and_eq_true] at h
    obtain ⟨h, h3⟩ := h
    rw [Bool.and_eq_true] at h
    obtain ⟨h1, h2⟩ := h
    simp only [laxZoneRecordValid]
    rw [Bool.and_eq_true]
    refine ⟨?_, bind_getNum_le_lax _ h6⟩
    rw [Bool.and_eq_true]
    refine ⟨?_, bind_getNum_le_lax _ h5⟩
    rw [Bool.and_eq_true]
    refine ⟨?_, bind_getNum_le_lax _ h4⟩
    rw [Bool.and_eq_true]
    refine ⟨?_, bind_getNum_le_lax _ h3⟩
    rw [Bool.and_eq_true]
    exact ⟨h1, h2⟩
  | null => simp [specZoneRecordValid] at h
  | bool b => simp [specZoneRecordValid] at h
  | num q => simp [specZoneRecordValid] at h
  | str t => simp [specZoneRecordValid] at h
  | arr a => simp [specZoneRecordValid] at h

theorem specValid_le_lax (j : Json) (h : specValidZonesData j = true) :
    laxValidZonesData j = true := by
  cases j with
  | arr items =>
    simp only [specValidZonesData, List.all_eq_true] at h
    simp only [laxValidZonesData, List.all_eq_true]
    exact fun x hx => specRecord_le_lax x (h x hx)
  | obj fields =>
    simp only [specValidZonesData] at h
    simp only [laxValidZonesData]
    cases hz : fields.lookup "zones" with
    | none => rw [hz] at h; simp at h
    | some jv =>
      rw [hz] at h
      cases jv with
      | arr items =>
        simp only [List.all_eq_true] at h ⊢
        exact fun x hx => specRecord_le_lax x (h x hx)
      | null => simp at h
      | bool b => simp at h
      | num q => simp at h
      | str t => simp at h
      | obj f2 => simp at h
  | null => simp [specValidZonesData] at h
  | bool b => simp [specValidZonesData] at h
  | num q => simp [specValidZonesData] at h
  | str t => simp [specValidZonesData] at h

/-- C9: counterexample — `load_zones` does not error on every file outside
the spec-typed shapes: `strBoundsFile` carries its four bounds as numeric
strings, so it is not spec-typed (`specValidZonesData` is false), yet
pydantic's lax validation coerces the strings and the program loads it
successfully; the claim's error-iff fails at this input. -/
theorem c9_strings_accepted :
    specValidZonesData strBoundsFile = false ∧
    load_zones (some (some strBoundsFile)) =
      Except.ok [Zone.mk "z" "n" (75 / 2) 38 (-245 / 2) (-122)] ∧
    ¬((∃ msg, load_zones (some (some strBoundsFile)) = Except.error msg) ↔
      specValidZonesData strBoundsFile = false) := by
  refine ⟨by decide, by with_unfolding_all rfl, ?_⟩
  intro hiff
  obtain ⟨msg, hmsg⟩ := hiff.mpr (by decide)
  rw [show load_zones (some (some strBoundsFile)) =
    Except.ok [Zone.mk "z" "n" (75 / 2) 38 (-245 / 2) (-122)] from
      by with_unfolding_all rfl] at hmsg
  exact Except.noConfusion hmsg

/-- C9 (amended): `load_zones` raises an error iff the zones file exists
but is not valid structured data of one of the two accepted shapes, where
a zone record is valid as the code accepts it: pydantic's lax validation
also coerces booleans and numeric strings into the four float bound
fields.  Spec-typed records (numeric bounds) are always accepted, and an
absent file is not an error: it yields the built-in catalog of exactly
zone_1 Downtown then zone_2 Airport, in that order. -/
theorem c9_load_zones_lax :
    (load_zones none = Except.ok get_default_zones) ∧
    (get_default_zones =
      [Zone.mk "zone_1" "Downtown" 37.7749 37.7849 (-122.4194) (-122.4094),
       Zone.mk "zone_2" "Airport" 37.6213 37.6313 (-122.3789) (-122.3689)]) ∧
    (∃ msg, load_zones (some none) = Except.error msg) ∧
    (∀ j : Json,
      (∃ zs, load_zones (some (some j)) = Except.ok zs) ↔ laxValidZonesData j = true) ∧
    (∀ j : Json,
      (∃ msg, load_zones (some (some j)) = Except.error msg) ↔
        laxValidZonesData j = false) ∧
    (∀ j : Json, specValidZonesData j = true → laxValidZonesData j = true) := by
  refine ⟨rfl, rfl, ⟨_, rfl⟩, ?_, ?_, specValid_le_lax⟩
  · intro j
    rw [exists_ok_iff, load_zones_isOk]
  · intro j
    rw [exists_err_iff, load_zones_isOk]

theorem c9_load_zones_lax_witness :
    laxValidZonesData (Json.arr [Json.obj
      [("zone_id", Json.str "z1"), ("name", Json.str "Downtown"),
       ("min_lat", Json.num 1), ("max_lat", Json.num 2),
       ("min_lng", Json.num 3), ("max_lng", Json.num 4)]]) = true :=
  c9_load_zones_lax.2.2.2.2.2 (Json.arr [Json.obj
    [("zone_id", Json.str "z1"), ("name", Json.str "Downtown"),
     ("min_lat", Json.num 1), ("max_lat", Json.num 2),
     ("min_lng", Json.num 3), ("max_lng", Json.num 4)]]) (by decide)

/-- C10: querying the status of a never-seen vehicle id does not fail and
is not read-only: `get_vehicle_status` goes through get-or-create, so it
inserts a fresh empty `VehicleState` for that id (no zone, no location, no
timestamp, empty history), returns its snapshot, grows the vehicle set by
one, and a subsequent get-or-create for that id finds the pre-existing
state without growing the store again. -/
theorem c10_status_creates (m : StateManager) (vid : String)
    (h : m.vehicles.lookup vid = none) :
    (get_vehicle_status m vid).2.vehicles.lookup vid = some (VehicleState.init vid) ∧
    (get_vehicle_status m vid).1 = VehicleState.to_status (VehicleState.init vid) ∧
    (get_vehicle_status m vid).1.current_zone = none ∧
    (get_vehicle_status m vid).1.last_latitude = none ∧
    (get_vehicle_status m vid).1.last_longitude = none ∧
    (get_vehicle_status m vid).1.last_update = none ∧
    (get_vehicle_status m vid).1.transition_history = [] ∧
    (get_vehicle_status m vid).2.vehicles.length = m.vehicles.length + 1 ∧
    ((get_vehicle_status m vid).2.get_vehicle vid).1 = VehicleState.init vid ∧
    ((get_vehicle_status m vid).2.get_vehicle vid).2 = (get_vehicle_status m vid).2 := by
  unfold get_vehicle_status
  rw [get_vehicle_of_none m vid h]
  have hl : (m.vehicles ++ [(vid, VehicleState.init vid)]).lookup vid
      = some (VehicleState.init vid) := by
    rw [lookup_append_pair, h]
    simp
  refine ⟨?_, rfl, rfl, rfl, rfl, rfl, rfl, ?_, ?_, ?_⟩
  · exact hl
  · simp
  · rw [get_vehicle_of_some _ _ _ hl]
  · rw [get_vehicle_of_some _ _ _ hl]

theorem c10_status_creates_witness :
    (get_vehicle_status (StateManager.mk [] []) "v1").2.vehicles.lookup "v1"
      = some (VehicleState.init "v1") ∧
    (get_vehicle_status (StateManager.mk [] []) "v1").2.vehicles.length = 1 ∧
    (get_vehicle_status (StateManager.mk [] []) "v1").1.transition_history = [] := by
  have h := c10_status_creates (StateManager.mk [] []) "v1" rfl
  exact ⟨h.1, h.2.2.2.2.2.2.2.1, h.2.2.2.2.2.2.1⟩
